import Mathlib

/-!
Shallow embedding of the authenticated-messaging core of vt-rust
(src/utils.rs, src/websockets.rs, src/services/conversations.rs) and
proofs about the properties its specification states.

Modelling conventions:
* `Uuid` is an opaque identifier, embedded as `Nat`; `Uuid::nil()` is `0`.
* Instants (`chrono::DateTime<Utc>`) are embedded as `Int` milliseconds;
  `chrono::Duration` values are `Int` milliseconds.
* Cryptographic primitives are idealized algebraically: an ES256-signed JWT
  records the claims and the signing key; an AES-256-GCM ciphertext records
  the key, the nonce and the plaintext, and decryption succeeds exactly
  under the same key and nonce (the standard symbolic model of AEAD).
* Database tables are in-memory lists; a `sqlx` statement that can fail at
  runtime (connection loss etc.) takes an explicit failure flag.
-/

namespace VtRust

/-- Opaque unique identifier (`uuid::Uuid`). -/
abbrev Uuid := Nat

/-- The nil UUID used by the server for system messages (`Uuid::nil()`). -/
def uuidNil : Uuid := 0

/-! ### src/utils.rs — freshness check `is_timestamp_valid` -/

/-- Embeds `chrono::Duration::seconds`, in milliseconds. -/
def durationSeconds (s : Int) : Int := s * 1000

/-- Embeds `chrono::Duration::minutes`, in milliseconds. -/
def durationMinutes (m : Int) : Int := m * 60000

/-- Embeds `utils.rs is_timestamp_valid`. `now` is `Utc::now()`;
`parseResult` is the outcome of `DateTime::parse_from_rfc3339(timestamp)`:
`some t` when the string parses to the instant `t`, `none` on a parse error.
The code accepts iff the parse succeeded and
`time_diff > Duration::seconds(-5) && time_diff < Duration::minutes(1)`. -/
def is_timestamp_valid (now : Int) (parseResult : Option Int) : Bool :=
  match parseResult with
  | some request_time =>
      let time_diff := now - request_time
      decide (time_diff > durationSeconds (-5)) && decide (time_diff < durationMinutes 1)
  | none => false

/-! ### src/utils.rs — session-credential mint and verify -/

/-- Embeds the JWT `Claims` struct of utils.rs. `exp` and `iat` are Unix
seconds, as produced by `Utc::now().timestamp()`. -/
structure Claims where
  sub : String
  iss : String
  aud : String
  exp : Nat
  iat : Nat
  scope : String
deriving DecidableEq, Repr

/-- Idealized ES256-signed JWT: the claims together with the signing key
that produced the signature. -/
structure SignedJwt where
  claims : Claims
  signKey : Nat
deriving DecidableEq, Repr

/-- Idealized AES-256-GCM ciphertext: records the symmetric key, the nonce
and the plaintext; decryption recovers the plaintext exactly when performed
under the same key and nonce. -/
structure AesGcmCiphertext where
  key : Nat
  nonce : List Nat
  payload : SignedJwt
deriving DecidableEq, Repr

/-- The nonce utils.rs builds with `Nonce::from_slice(&[0u8; 12])` — the
same constant on every call, in both encryption and decryption. -/
def fixedNonce : List Nat := List.replicate 12 0

/-- Server key material drawn from the environment (`JWT_PRIVATE_KEY` /
`JWT_PUBLIC_KEY` as one ES256 key pair, and `ENCRYPTION_KEY`). -/
structure Env where
  jwtKeyPair : Nat
  encryptionKey : Nat
deriving DecidableEq, Repr

/-- Seconds in `Duration::days(1)`, the session-credential lifetime. -/
def secondsPerDay : Nat := 86400

/-- Embeds `utils.rs generate_signed_encrypted_token`. `now` is
`Utc::now().timestamp()` in seconds. Builds the claims with
`exp = now + 24h`, signs them with the server key (ES256), then encrypts
the signed token with AES-256-GCM under the constant nonce `[0u8; 12]`.
Returns the ciphertext and the expiry. -/
def generate_signed_encrypted_token (env : Env) (user_id : Uuid) (user_scope : String)
    (now : Nat) : AesGcmCiphertext × Nat :=
  let expiration := now + secondsPerDay
  let claims : Claims :=
    { sub := toString user_id
      iss := "VeterinaryText"
      aud := "VeterinaryText"
      exp := expiration
      iat := now
      scope := user_scope }
  let token : SignedJwt := { claims := claims, signKey := env.jwtKeyPair }
  let ciphertext : AesGcmCiphertext :=
    { key := env.encryptionKey, nonce := fixedNonce, payload := token }
  (ciphertext, expiration)

/-- Failure cases of `verify_and_decode_token`. -/
inductive TokenError where
  | DecryptionError
  | InvalidSignature
  | ExpiredSignature
deriving DecidableEq, Repr

/-- Default `leeway` of `jsonwebtoken`'s `Validation::new`, in seconds:
the crate tolerates clock skew of 60 seconds when checking `exp`. -/
def jwtDefaultLeeway : Nat := 60

/-- Embeds `utils.rs verify_and_decode_token` evaluated at instant `now`
(seconds). Decrypt with the environment key and the constant nonce, verify
the inner ES256 signature against the server key pair, then run
`jsonwebtoken` validation: `Validation::new(Algorithm::ES256)` keeps the
crate's default 60-second leeway, and its expiry check
`exp < now - leeway` (u64 seconds) is written additively as
`exp + leeway < now`, which is equivalent for every post-1970 clock
value. -/
def verify_and_decode_token (env : Env) (encrypted_token : AesGcmCiphertext)
    (now : Nat) : Except TokenError Claims :=
  if encrypted_token.key = env.encryptionKey ∧ encrypted_token.nonce = fixedNonce then
    if encrypted_token.payload.signKey = env.jwtKeyPair then
      if encrypted_token.payload.claims.exp + jwtDefaultLeeway < now then
        .error .ExpiredSignature
      else
        .ok encrypted_token.payload.claims
    else .error .InvalidSignature
  else .error .DecryptionError

/-! ### src/websockets.rs — connection route -/

/-- Carriage of whatever credentials and headers the websocket handshake
request presents (`actix_web::HttpRequest`, restricted to the data the
claims range over). -/
structure HttpRequest where
  authorization : Option String
  headers : List (String × String)
deriving DecidableEq, Repr

/-- The session state `websocket_route` constructs; the actor address and
the database pool carried alongside have no bearing on the registered
identity and are omitted. -/
structure WsSession where
  id : Uuid
deriving DecidableEq, Repr

/-- Embeds `websockets.rs websocket_route`. `freshUuid` is the result of
the `Uuid::new_v4()` random draw performed inside the route; the request is
used only to complete the websocket handshake, never to choose the
identity. -/
def websocket_route (req : HttpRequest) (freshUuid : Uuid) : WsSession :=
  { id := freshUuid }

/-! ### src/models.rs — rows of the conversations and messages tables -/

/-- Embeds the `Conversation` row (models.rs). -/
structure Conversation where
  id : Uuid
  providers : List Uuid
  client : Uuid
  pet : Uuid
  last_message : Option String
  last_updated_timestamp : Int
deriving DecidableEq, Repr

/-- Embeds the `Message` row (models.rs). -/
structure Message where
  id : Uuid
  conversation_id : Uuid
  sender_id : Uuid
  content : String
  timestamp : Int
deriving DecidableEq, Repr

/-- In-memory image of the relational state the conversation code touches:
the `users` table restricted to the consulted columns (id and scope), the
`conversations` and `messages` tables, and the sequence that assigns the id
of the next inserted message row. -/
structure Db where
  users : List (Uuid × String)
  conversations : List Conversation
  messages : List Message
  nextMessageId : Uuid
deriving DecidableEq, Repr

/-- Embeds the querying pattern `SELECT scope FROM users WHERE id = $1`
followed by `Ok(Some(record)) => record.scope, _ => "unknown"` that every
event arm of websockets.rs uses. -/
def userScope (db : Db) (user_id : Uuid) : String :=
  match db.users.find? (fun r => r.1 == user_id) with
  | some r => r.2
  | none => "unknown"

/-- Embeds `SELECT id FROM conversations WHERE id = $1 AND client = $2`
followed by `fetch_optional` — `true` iff some row matches. -/
def clientInConversation (db : Db) (conversation_id user_id : Uuid) : Bool :=
  (db.conversations.find? (fun c => c.id == conversation_id && c.client == user_id)).isSome

/-- Embeds `SELECT id FROM conversations WHERE id = $1 AND $2 = ANY(providers)`
followed by `fetch_optional` — `true` iff some row matches. -/
def providerInConversation (db : Db) (conversation_id user_id : Uuid) : Bool :=
  (db.conversations.find? (fun c => c.id == conversation_id && c.providers.contains user_id)).isSome

/-- Embeds the `can_send` computation of the websockets.rs "message" arm
(the "conversation_history" arm computes `can_access` identically): look up
the requester's scope, then run the role-specific membership query. -/
def can_send (db : Db) (user_id conversation_id : Uuid) : Bool :=
  let user_role := userScope db user_id
  if user_role = "client" then clientInConversation db conversation_id user_id
  else if user_role = "provider" then providerInConversation db conversation_id user_id
  else false

/-- Runtime failures a `sqlx` statement can surface. `Protocol` is the
variant `get_conversation_messages` builds for validation failures; `Db`
stands for any connection/execution error injected by the environment. -/
inductive SqlxError where
  | Protocol (msg : String)
  | Db
deriving DecidableEq, Repr

instance {ε α : Type} [DecidableEq ε] [DecidableEq α] : DecidableEq (Except ε α) := fun a b =>
  match a, b with
  | .ok x, .ok y =>
      if h : x = y then .isTrue (by rw [h]) else .isFalse (fun hc => h (Except.ok.inj hc))
  | .ok _, .error _ => .isFalse (fun hc => Except.noConfusion hc)
  | .error _, .ok _ => .isFalse (fun hc => Except.noConfusion hc)
  | .error e, .error f =>
      if h : e = f then .isTrue (by rw [h]) else .isFalse (fun hc => h (Except.error.inj hc))

/-- Post-state and result of `ConversationService::send_message`. -/
structure SendOutcome where
  db : Db
  result : Except SqlxError Message
deriving DecidableEq, Repr

/-- Embeds `services/conversations.rs ConversationService::send_message`.
The function runs two independent statements with no enclosing
transaction: first `INSERT INTO messages ... RETURNING ...`, then
`UPDATE conversations SET last_message = $1, last_updated_timestamp = $2
WHERE id = $3`; each `.await?` can fail, which the flags `insertFails` and
`updateFails` inject. On an insert failure nothing is written; on an
update failure the inserted message row is already durable and the
function returns the error. -/
def ConversationService.send_message (db : Db) (sender_id conversation_id : Uuid)
    (content : String) (timestamp : Int) (insertFails updateFails : Bool) : SendOutcome :=
  if insertFails then
    { db := db, result := .error .Db }
  else
    let message : Message :=
      { id := db.nextMessageId
        conversation_id := conversation_id
        sender_id := sender_id
        content := content
        timestamp := timestamp }
    let db1 : Db :=
      { db with
        messages := db.messages ++ [message]
        nextMessageId := db.nextMessageId + 1 }
    if updateFails then
      { db := db1, result := .error .Db }
    else
      let db2 : Db :=
        { db1 with
          conversations := db1.conversations.map (fun c =>
            if c.id == conversation_id then
              { c with last_message := some content, last_updated_timestamp := timestamp }
            else c) }
      { db := db2, result := .ok message }

/-- Ordering used by `ORDER BY timestamp DESC`: earlier list positions
carry the later (or equal) timestamps. -/
def timestampDescRel (a b : Message) : Prop := b.timestamp ≤ a.timestamp

instance : DecidableRel timestampDescRel :=
  fun a b => inferInstanceAs (Decidable (b.timestamp ≤ a.timestamp))

instance : IsTotal Message timestampDescRel :=
  ⟨fun a b => Int.le_total b.timestamp a.timestamp⟩

instance : IsTrans Message timestampDescRel :=
  ⟨fun _ _ _ hab hbc => le_trans hbc hab⟩

/-- Two's-complement wrap-around of Rust release-mode `i32` arithmetic and
of `as i32` casts: reduce the value into `[-2^31, 2^31)`. -/
def wrapI32 (x : Int) : Int := (x + 2 ^ 31) % 2 ^ 32 - 2 ^ 31

/-- Embeds `services/conversations.rs get_conversation_messages`, with the
second component of the result counting the store statements executed
(0 when validation rejects the input before any query; 2 otherwise — the
COUNT query and the page query). `page` and `limit` are the event's `i32`
fields; the offset `(page - 1) * limit` and the `offset + limit` sum in
`has_more` are `i32` arithmetic, which wraps in release builds
(`wrapI32`), and the COUNT value is truncated by `as i32`. When the
wrapped offset is negative, the `OFFSET $3` page query fails on
PostgreSQL (`OFFSET must not be negative`) and the error propagates via
`?` after the COUNT query already ran. -/
def ConversationService.get_conversation_messages (db : Db) (conversation_id : Uuid)
    (page limit : Int) : Except SqlxError (List Message × Int × Bool) × Nat :=
  if page < 1 then
    (.error (.Protocol "Invalid page number: must be >= 1"), 0)
  else if limit < 1 ∨ limit > 100 then
    (.error (.Protocol "Invalid limit: must be between 1 and 100"), 0)
  else
    let offset := wrapI32 ((page - 1) * limit)
    let conversationRows := db.messages.filter (fun m => m.conversation_id == conversation_id)
    let total_count : Int := wrapI32 (conversationRows.length : Int)
    if offset < 0 then
      (.error .Db, 2)
    else
      let sorted := conversationRows.insertionSort timestampDescRel
      let messages := (sorted.drop offset.toNat).take limit.toNat
      let has_more := decide (wrapI32 (offset + limit) < total_count)
      (.ok (messages, total_count, has_more), 2)

/-! ### src/websockets.rs — WsServer state and its handlers -/

/-- Embeds the `WsServer` actor state: `sessions` is the key set of the
`HashMap<Uuid, Recipient<BroadcastMessage>>` (the channel handles are
opaque), `conversation_subscriptions` the
`HashMap<Uuid, HashSet<Uuid>>` as an association list of conversation id
and subscribed user ids. -/
structure WsServer where
  sessions : List Uuid
  conversation_subscriptions : List (Uuid × List Uuid)
deriving DecidableEq, Repr

/-- `HashSet::insert` — idempotent insertion. -/
def insertSet (s : List Uuid) (u : Uuid) : List Uuid :=
  if s.contains u then s else s ++ [u]

/-- `HashSet::remove` on the subscriber set. -/
def removeSet (s : List Uuid) (u : Uuid) : List Uuid :=
  s.filter (fun x => x != u)

/-- Embeds `WsServer::subscribe_to_conversation`:
`entry(conversation_id).or_insert_with(HashSet::new).insert(user_id)`. -/
def subscribe_to_conversation (srv : WsServer) (user_id conversation_id : Uuid) : WsServer :=
  { srv with
    conversation_subscriptions :=
      if (srv.conversation_subscriptions.find? (fun e => e.1 == conversation_id)).isSome then
        srv.conversation_subscriptions.map (fun e =>
          if e.1 == conversation_id then (e.1, insertSet e.2 user_id) else e)
      else
        srv.conversation_subscriptions ++ [(conversation_id, [user_id])] }

/-- Embeds `WsServer::unsubscribe_from_conversation`: if the conversation
has an entry, remove the user from it, and drop the entry entirely when
the set became empty. -/
def unsubscribe_from_conversation (srv : WsServer) (user_id conversation_id : Uuid) : WsServer :=
  { srv with
    conversation_subscriptions :=
      srv.conversation_subscriptions.filterMap (fun e =>
        if e.1 == conversation_id then
          if (removeSet e.2 user_id).isEmpty then none
          else some (e.1, removeSet e.2 user_id)
        else some e) }

/-- Embeds `Handler<Disconnect> for WsServer`: remove the session, purge
the id from every subscriber set, then `retain` only non-empty entries. -/
def disconnect (srv : WsServer) (id : Uuid) : WsServer :=
  { sessions := srv.sessions.filter (fun s => s != id)
    conversation_subscriptions :=
      (srv.conversation_subscriptions.map (fun e => (e.1, removeSet e.2 id))).filter
        (fun e => !e.2.isEmpty) }

/-- Payload of an outbound `WsMessage`, restricted to the shapes the
"message" arm produces. -/
inductive Params where
  | messageRow (m : Message)
  | errorText (s : String)
deriving DecidableEq, Repr

/-- Embeds the outbound `WsMessage` envelope. -/
structure WsMsg where
  sender_id : Uuid
  event : String
  params : Params
deriving DecidableEq, Repr

/-- One websocket text frame pushed to one connected session. -/
structure Delivery where
  recipient : Uuid
  message : WsMsg
deriving DecidableEq, Repr

/-- Embeds `WsServer::broadcast_message`: deliver to every live session. -/
def broadcast_message (srv : WsServer) (message : WsMsg) : List Delivery :=
  srv.sessions.map (fun s => { recipient := s, message := message })

/-- Embeds `WsServer::broadcast_to_conversation`: deliver to every
subscriber of the conversation that has a live session. -/
def broadcast_to_conversation (srv : WsServer) (message : WsMsg)
    (conversation_id : Uuid) : List Delivery :=
  match srv.conversation_subscriptions.find? (fun e => e.1 == conversation_id) with
  | some e =>
      (e.2.filter (fun u => srv.sessions.contains u)).map
        (fun u => { recipient := u, message := message })
  | none => []

/-- Post-state and outbound traffic of one run of the "message" arm. -/
structure MessageArmResult where
  db : Db
  server : WsServer
  deliveries : List Delivery
deriving DecidableEq, Repr

/-- Embeds the `"message"` arm of `StreamHandler for WsSession`
(websockets.rs lines 336-437) together with the `WsServer` handlers the
spawned future drives. `session_id` is `self.id`, the authenticated
connection identity; `envelope_sender_id` is `ws_message.sender_id`, the
value carried in the client-supplied envelope — the code binds
`let sender_id = ws_message.sender_id` and passes it to
`ConversationService::send_message`. The authorization check and the
auto-subscribe use `user_id = self.id`. Error events are sent with
`addr.do_send(BroadcastMessage(..))` where `addr` is the `WsServer`
address, so they go through `WsServer::broadcast_message` to every live
session. -/
def handle_message_event (db : Db) (srv : WsServer) (session_id envelope_sender_id : Uuid)
    (conversation_id : Uuid) (content : String) (timestamp : Int)
    (insertFails updateFails : Bool) : MessageArmResult :=
  let user_id := session_id
  let sender_id := envelope_sender_id
  if !(can_send db user_id conversation_id) then
    { db := db
      server := srv
      deliveries := broadcast_message srv
        { sender_id := uuidNil
          event := "error"
          params := .errorText "You are not authorized to send messages in this conversation" } }
  else
    let srv1 := subscribe_to_conversation srv user_id conversation_id
    let outcome := ConversationService.send_message db sender_id conversation_id content
      timestamp insertFails updateFails
    match outcome.result with
    | .ok message =>
        { db := outcome.db
          server := srv1
          deliveries := broadcast_to_conversation srv1
            { sender_id := uuidNil, event := "message_sent", params := .messageRow message }
            conversation_id }
    | .error _ =>
        { db := outcome.db
          server := srv1
          deliveries := broadcast_message srv1
            { sender_id := uuidNil
              event := "error"
              params := .errorText "Error sending message" } }

/-! ### Concrete fixtures used by the witnesses and counterexamples -/

/-- Fixture: one client user 1 owning conversation 100 with provider 3;
message ids start at 500. -/
def dbSender : Db :=
  { users := [(1, "client")]
    conversations := [{ id := 100, providers := [3], client := 1, pet := 7,
                        last_message := some "old", last_updated_timestamp := 0 }]
    messages := []
    nextMessageId := 500 }

/-- Fixture: user 1 connected and subscribed to conversation 100. -/
def srvSender : WsServer :=
  { sessions := [1], conversation_subscriptions := [(100, [1])] }

/-- Fixture: the conversation of `dbSender`, with its pre-send summary. -/
def convAtomic : Conversation :=
  { id := 100, providers := [3], client := 1, pet := 7,
    last_message := some "old", last_updated_timestamp := 0 }

/-- Fixture: sessions 1 and 2 connected; only 1 subscribes to
conversation 100. -/
def srvTwoSessions : WsServer :=
  { sessions := [1, 2], conversation_subscriptions := [(100, [1])] }

/-- Fixture: conversation 100 whose client is 1 but whose providers list
names user 2, who is registered with scope client. -/
def convMixed : Conversation :=
  { id := 100, providers := [2], client := 1, pet := 7,
    last_message := some "old", last_updated_timestamp := 0 }

/-- Fixture: two client-scoped users; user 2 appears in the providers list
of conversation 100 (create_conversation never checks providers' scopes). -/
def dbMixed : Db :=
  { users := [(1, "client"), (2, "client")]
    conversations := [convMixed]
    messages := []
    nextMessageId := 500 }

/-- Fixture: conversation 100 with three persisted messages of timestamps
5, 9 and 1, plus an unrelated message in conversation 200. -/
def dbHist : Db :=
  { users := [(1, "client")]
    conversations := [convAtomic]
    messages :=
      [{ id := 501, conversation_id := 100, sender_id := 1, content := "a", timestamp := 5 },
       { id := 502, conversation_id := 100, sender_id := 3, content := "b", timestamp := 9 },
       { id := 503, conversation_id := 100, sender_id := 1, content := "c", timestamp := 1 },
       { id := 504, conversation_id := 200, sender_id := 4, content := "d", timestamp := 7 }]
    nextMessageId := 505 }

/-! ### Theorems -/

/-- C2: the identity registered for a websocket connection is exactly the
fresh `Uuid::new_v4()` draw `n`: it is independent of any credential or
header in the handshake request, two connections with distinct draws get
distinct identities, and the identity equals a registered user's id `u`
only when the draw collides with it. -/
theorem websocket_route_identity_is_fresh_random (req req' : HttpRequest) (n n' u : Uuid) :
    (websocket_route req n).id = n ∧
    (websocket_route req n).id = (websocket_route req' n).id ∧
    (n ≠ n' → (websocket_route req n).id ≠ (websocket_route req' n').id) ∧
    ((websocket_route req n).id = u ↔ n = u) :=
  ⟨rfl, rfl, fun h => h, Iff.rfl⟩

/-- Witness: a handshake presenting a bearer credential and one presenting
none, with distinct RNG draws 1 and 2. -/
theorem websocket_route_identity_is_fresh_random_witness :
    (websocket_route { authorization := some "Bearer tok", headers := [("X-User", "alice")] } 1).id = 1 ∧
    (1 : Nat) ≠ 2 ∧
    (websocket_route { authorization := some "Bearer tok", headers := [("X-User", "alice")] } 1).id ≠
      (websocket_route { authorization := none, headers := [] } 2).id :=
  ⟨(websocket_route_identity_is_fresh_random
      { authorization := some "Bearer tok", headers := [("X-User", "alice")] }
      { authorization := none, headers := [] } 1 2 1).1,
   by decide,
   (websocket_route_identity_is_fresh_random
      { authorization := some "Bearer tok", headers := [("X-User", "alice")] }
      { authorization := none, headers := [] } 1 2 1).2.2.1 (by decide)⟩

/-- C6: `generate_signed_encrypted_token` encrypts under the constant nonce
`[0u8; 12]` on every invocation — any two calls, whatever their key
material, user, scope or time, use the very same nonce, never a per-call
fresh one. -/
theorem generate_token_nonce_constant (e1 e2 : Env) (u1 u2 : Uuid) (s1 s2 : String)
    (t1 t2 : Nat) :
    (generate_signed_encrypted_token e1 u1 s1 t1).1.nonce = fixedNonce ∧
    (generate_signed_encrypted_token e1 u1 s1 t1).1.nonce =
      (generate_signed_encrypted_token e2 u2 s2 t2).1.nonce :=
  ⟨rfl, rfl⟩

/-- C7 counterexample: minted at time 0, the token expires at 86400, yet
verification at 86401 — after the expiry timestamp has passed — still
returns the claims instead of the expired-credential failure, because
`Validation::new` keeps jsonwebtoken's default 60-second leeway. -/
theorem mint_verify_accepts_within_leeway :
    (generate_signed_encrypted_token { jwtKeyPair := 5, encryptionKey := 9 } 42 "client" 0).2 =
      86400 ∧
    (86400 : Nat) < 86401 ∧
    verify_and_decode_token { jwtKeyPair := 5, encryptionKey := 9 }
        (generate_signed_encrypted_token { jwtKeyPair := 5, encryptionKey := 9 } 42 "client" 0).1
        86401 =
      .ok { sub := toString (42 : Uuid), iss := "VeterinaryText", aud := "VeterinaryText",
            exp := 86400, iat := 0, scope := "client" } := by decide

/-- C7 (amended): verifying the token minted for `user_id` with
`user_scope` yields exactly the minted claims — subject `user_id`, scope
`user_scope` — whenever verification happens at or before
expiry + 60 s (so in particular before the 24-hour expiry), and yields the
expired-credential failure exactly when verification happens more than the
60-second default leeway after the expiry instant. -/
theorem mint_verify_round_trip (env : Env) (user_id : Uuid) (user_scope : String)
    (mintTime verifyTime : Nat) (tok : AesGcmCiphertext) (expiry : Nat)
    (hmint : generate_signed_encrypted_token env user_id user_scope mintTime = (tok, expiry)) :
    (verifyTime ≤ expiry + jwtDefaultLeeway →
      verify_and_decode_token env tok verifyTime =
        .ok { sub := toString user_id, iss := "VeterinaryText", aud := "VeterinaryText",
              exp := mintTime + secondsPerDay, iat := mintTime, scope := user_scope }) ∧
    (expiry + jwtDefaultLeeway < verifyTime →
      verify_and_decode_token env tok verifyTime = .error .ExpiredSignature) := by
  have htok : tok = (generate_signed_encrypted_token env user_id user_scope mintTime).1 := by
    rw [hmint]
  have hexp : expiry = (generate_signed_encrypted_token env user_id user_scope mintTime).2 := by
    rw [hmint]
  subst htok
  have hexp' : expiry = mintTime + secondsPerDay := hexp
  constructor
  · intro hle
    have hle' : verifyTime ≤ mintTime + secondsPerDay + jwtDefaultLeeway := hexp' ▸ hle
    have hnot : ¬ (mintTime + secondsPerDay + jwtDefaultLeeway < verifyTime) := by omega
    simp [verify_and_decode_token, generate_signed_encrypted_token, hnot]
  · intro hgt
    have hgt' : mintTime + secondsPerDay + jwtDefaultLeeway < verifyTime := hexp' ▸ hgt
    simp [verify_and_decode_token, generate_signed_encrypted_token, hgt']

/-- Witness: key pair 5 and encryption key 9, user 42 with scope client,
minted at time 0; verification at 100 (before expiry 86400) recovers the
claims, verification at 100000 (more than 60 s past expiry) is rejected as
expired. -/
theorem mint_verify_round_trip_witness :
    verify_and_decode_token { jwtKeyPair := 5, encryptionKey := 9 }
        (generate_signed_encrypted_token { jwtKeyPair := 5, encryptionKey := 9 } 42 "client" 0).1 100 =
      .ok { sub := toString (42 : Uuid), iss := "VeterinaryText", aud := "VeterinaryText",
            exp := 0 + secondsPerDay, iat := 0, scope := "client" } ∧
    verify_and_decode_token { jwtKeyPair := 5, encryptionKey := 9 }
        (generate_signed_encrypted_token { jwtKeyPair := 5, encryptionKey := 9 } 42 "client" 0).1 100000 =
      .error .ExpiredSignature := by
  constructor
  · exact (mint_verify_round_trip { jwtKeyPair := 5, encryptionKey := 9 } 42 "client" 0 100
      (generate_signed_encrypted_token { jwtKeyPair := 5, encryptionKey := 9 } 42 "client" 0).1
      (generate_signed_encrypted_token { jwtKeyPair := 5, encryptionKey := 9 } 42 "client" 0).2
      rfl).1 (by decide)
  · exact (mint_verify_round_trip { jwtKeyPair := 5, encryptionKey := 9 } 42 "client" 0 100000
      (generate_signed_encrypted_token { jwtKeyPair := 5, encryptionKey := 9 } 42 "client" 0).1
      (generate_signed_encrypted_token { jwtKeyPair := 5, encryptionKey := 9 } 42 "client" 0).2
      rfl).2 (by decide)

/-- C8 (amended): the freshness check accepts exactly the timestamps that
parse and whose age `now − t` lies in the OPEN interval
(−5 s, +60 s); a string that fails to parse is rejected. -/
theorem is_timestamp_valid_characterization (now : Int) (pr : Option Int) :
    is_timestamp_valid now pr = true ↔
      ∃ t, pr = some t ∧ now - t ∈ Set.Ioo (durationSeconds (-5)) (durationMinutes 1) := by
  cases pr with
  | none => simp [is_timestamp_valid]
  | some t => simp [is_timestamp_valid, Set.mem_Ioo]

/-- C8 counterexample: at `now − t` exactly +60 s — a boundary value of the
claimed closed interval [−5 s, +60 s] — the code rejects the timestamp. -/
theorem is_timestamp_valid_boundary_rejected :
    is_timestamp_valid 60000 (some 0) = false ∧
    durationSeconds (-5) ≤ 60000 - 0 ∧ (60000 : Int) - 0 ≤ durationMinutes 1 := by decide

/-- C1: on a connection authenticated as identity 1, an inbound `message`
envelope carrying `sender_id = 2` is persisted with sender 2 — the
client-supplied payload value, not the authenticated connection
identity 1. -/
theorem message_sender_taken_from_payload :
    (handle_message_event dbSender srvSender 1 2 100 "hi" 5 false false).db.messages =
      [{ id := 500, conversation_id := 100, sender_id := 2, content := "hi", timestamp := 5 }] ∧
    (2 : Uuid) ≠ 1 := by decide

/-- C4: when the UPDATE statement fails after the INSERT succeeded (the two
statements of `send_message` share no transaction), the post-state holds
the newly persisted Message while the conversation summary still carries
the older message. -/
theorem send_message_not_atomic :
    (ConversationService.send_message dbSender 1 100 "new" 5 false true).db.messages =
      [{ id := 500, conversation_id := 100, sender_id := 1, content := "new", timestamp := 5 }] ∧
    (ConversationService.send_message dbSender 1 100 "new" 5 false true).db.conversations =
      [convAtomic] ∧
    convAtomic.last_message = some "old" ∧
    (ConversationService.send_message dbSender 1 100 "new" 5 false true).result =
      .error .Db := by decide

/-- C5: a Conversation-Store failure while identity 1 handles a `message`
event produces an `error` event delivered to every live session — the
uninvolved identity 2 receives it too (the registry and index themselves
are not mutated by the failure handling). -/
theorem store_error_broadcast_to_all :
    (handle_message_event dbSender srvTwoSessions 1 1 100 "x" 5 false true).deliveries.map
        (fun d => d.recipient) = [1, 2] ∧
    (handle_message_event dbSender srvTwoSessions 1 1 100 "x" 5 false true).deliveries.all
        (fun d => d.message.event == "error") = true ∧
    (2 : Uuid) ≠ 1 ∧
    (handle_message_event dbSender srvTwoSessions 1 1 100 "x" 5 false true).server =
      srvTwoSessions := by decide

/-- A contiguous slice of a list sorted by descending timestamp is itself
sorted by descending timestamp. -/
theorem sorted_slice_of_sorted {l : List Message} (h : List.Sorted timestampDescRel l)
    (n m : Nat) : List.Sorted timestampDescRel ((l.drop n).take m) :=
  List.Pairwise.sublist ((List.take_sublist m (l.drop n)).trans (List.drop_sublist n l)) h

/-- Values already inside the `i32` range are fixed points of the wrap. -/
theorem wrapI32_eq_self {x : Int} (h1 : -(2 ^ 31) ≤ x) (h2 : x < 2 ^ 31) : wrapI32 x = x := by
  unfold wrapI32
  have hlo : 0 ≤ x + 2 ^ 31 := by omega
  have hhi : x + 2 ^ 31 < 2 ^ 32 := by omega
  rw [Int.emod_eq_of_lt hlo hhi]
  omega

/-- C9 counterexample: page 21474838 with limit 100 passes the validation
bounds of the claim, yet the `i32` multiplication `(page - 1) * limit`
wraps to a negative offset and the page query fails on the store — the
program returns an error instead of the claimed page of messages. -/
theorem get_conversation_messages_overflow :
    (1 : Int) ≤ 21474838 ∧ (1 : Int) ≤ 100 ∧ (100 : Int) ≤ 100 ∧
    wrapI32 ((21474838 - 1) * 100) < 0 ∧
    ConversationService.get_conversation_messages dbHist 100 21474838 100 =
      (.error .Db, 2) := by decide

/-- C9 (amended): a history request with `page < 1` or `limit` outside
`[1, 100]` is rejected as a validation failure with zero store statements
executed; on valid input whose offset arithmetic stays inside `i32`
(otherwise the release-mode multiplication wraps and the query errors or
uses a wrapped offset) at most `limit` messages are returned, ordered by
timestamp descending, being exactly the slice of the ordered conversation
rows starting at offset `(page − 1)·limit`, the total is the
conversation's row count, and `has_more` is `false` iff
`total_count ≤ page·limit`. -/
theorem get_conversation_messages_spec (db : Db) (cid : Uuid) (page limit : Int) :
    ((page < 1 ∨ limit < 1 ∨ 100 < limit) →
      ∃ s, ConversationService.get_conversation_messages db cid page limit =
        (.error (.Protocol s), 0)) ∧
    (1 ≤ page → 1 ≤ limit → limit ≤ 100 →
      (page - 1) * limit + limit < 2 ^ 31 →
      ((db.messages.filter (fun m => m.conversation_id == cid)).length : Int) < 2 ^ 31 →
      ∃ msgs total more,
        ConversationService.get_conversation_messages db cid page limit =
          (.ok (msgs, total, more), 2) ∧
        msgs.length ≤ limit.toNat ∧
        List.Sorted timestampDescRel msgs ∧
        msgs = (((db.messages.filter (fun m => m.conversation_id == cid)).insertionSort
            timestampDescRel).drop ((page - 1) * limit).toNat).take limit.toNat ∧
        total = ((db.messages.filter (fun m => m.conversation_id == cid)).length : Int) ∧
        (more = false ↔ total ≤ page * limit)) := by
  constructor
  · intro hbad
    unfold ConversationService.get_conversation_messages
    by_cases h1 : page < 1
    · exact ⟨"Invalid page number: must be >= 1", by rw [if_pos h1]⟩
    · have h2 : limit < 1 ∨ limit > 100 := by omega
      exact ⟨"Invalid limit: must be between 1 and 100", by rw [if_neg h1, if_pos h2]⟩
  · intro hp hl hu hoff hcnt
    have h1 : ¬ (page < 1) := by omega
    have h2 : ¬ (limit < 1 ∨ limit > 100) := by omega
    have hX0 : 0 ≤ (page - 1) * limit := mul_nonneg (by omega) (by omega)
    have hXlt : (page - 1) * limit < 2 ^ 31 := by linarith
    have hoffeq : wrapI32 ((page - 1) * limit) = (page - 1) * limit :=
      wrapI32_eq_self (by linarith) hXlt
    have hcnt0 : (0 : Int) ≤
        ((db.messages.filter (fun m => m.conversation_id == cid)).length : Int) :=
      Int.natCast_nonneg _
    have hcnteq : wrapI32 ((db.messages.filter (fun m => m.conversation_id == cid)).length :
        Int) = ((db.messages.filter (fun m => m.conversation_id == cid)).length : Int) :=
      wrapI32_eq_self (by linarith) hcnt
    have hmoreeq : wrapI32 ((page - 1) * limit + limit) = (page - 1) * limit + limit :=
      wrapI32_eq_self (by linarith) hoff
    have hneg : ¬ ((page - 1) * limit < 0) := by linarith
    refine ⟨(((db.messages.filter (fun m => m.conversation_id == cid)).insertionSort
        timestampDescRel).drop ((page - 1) * limit).toNat).take limit.toNat,
      ((db.messages.filter (fun m => m.conversation_id == cid)).length : Int),
      decide ((page - 1) * limit + limit <
        ((db.messages.filter (fun m => m.conversation_id == cid)).length : Int)),
      ?_, ?_, ?_, rfl, rfl, ?_⟩
    · unfold ConversationService.get_conversation_messages
      rw [if_neg h1, if_neg h2]
      simp only [hoffeq, hcnteq, hmoreeq]
      rw [if_neg hneg]
    · exact List.length_take_le _ _
    · exact sorted_slice_of_sorted (List.sorted_insertionSort timestampDescRel _) _ _
    · have harith : (page - 1) * limit + limit = page * limit := by ring
      rw [decide_eq_false_iff_not, not_lt, harith]

/-- Witness for the history theorem: `dbHist` holds three messages in
conversation 100; the request `page = 0` is rejected without store access,
and the request `page = 1, limit = 2` (offset arithmetic far inside `i32`)
returns the two newest messages. -/
theorem get_conversation_messages_spec_witness :
    (∃ s, ConversationService.get_conversation_messages dbHist 100 0 20 =
      (.error (.Protocol s), 0)) ∧
    (∃ msgs total more,
      ConversationService.get_conversation_messages dbHist 100 1 2 =
        (.ok (msgs, total, more), 2) ∧
      msgs.length ≤ (2 : Int).toNat ∧
      List.Sorted timestampDescRel msgs ∧
      msgs = (((dbHist.messages.filter (fun m => m.conversation_id == 100)).insertionSort
          timestampDescRel).drop (((1 : Int) - 1) * 2).toNat).take (2 : Int).toNat ∧
      total = ((dbHist.messages.filter (fun m => m.conversation_id == 100)).length : Int) ∧
      (more = false ↔ total ≤ 1 * 2)) :=
  ⟨(get_conversation_messages_spec dbHist 100 0 20).1 (by decide),
   (get_conversation_messages_spec dbHist 100 1 2).2 (by decide) (by decide) (by decide)
     (by decide) (by decide)⟩

/-- HashSet-style insertion never produces an empty set. -/
theorem insertSet_ne_nil (s : List Uuid) (u : Uuid) : insertSet s u ≠ [] := by
  unfold insertSet
  by_cases h : s.contains u
  · rw [if_pos h]
    intro hnil
    subst hnil
    simp at h
  · rw [if_neg h]
    simp

/-- HashSet-style insertion of an element already present is the identity. -/
theorem insertSet_of_contains {s : List Uuid} {u : Uuid} (h : s.contains u = true) :
    insertSet s u = s := if_pos h

/-- The inserted element is contained afterwards. -/
theorem insertSet_contains_self (s : List Uuid) (u : Uuid) :
    (insertSet s u).contains u = true := by
  by_cases h : s.contains u
  · rw [insertSet, if_pos h]
    exact h
  · rw [insertSet, if_neg h]
    simp [List.elem_iff]

/-- HashSet-style insertion is idempotent. -/
theorem insertSet_idem (s : List Uuid) (u : Uuid) :
    insertSet (insertSet s u) u = insertSet s u :=
  insertSet_of_contains (insertSet_contains_self s u)

/-- Removing an element that is not a member leaves the set unchanged. -/
theorem removeSet_of_not_mem {s : List Uuid} {u : Uuid} (h : u ∉ s) : removeSet s u = s := by
  unfold removeSet
  apply List.filter_eq_self.mpr
  intro x hx
  simp only [bne_iff_ne, ne_eq, decide_eq_true_eq]
  intro hxe
  exact h (hxe ▸ hx)

/-- Subscribing the same identity to the same conversation twice equals
subscribing once. -/
theorem subscribe_idem (srv : WsServer) (u c : Uuid) :
    subscribe_to_conversation (subscribe_to_conversation srv u c) u c =
      subscribe_to_conversation srv u c := by
  obtain ⟨ses, l⟩ := srv
  unfold subscribe_to_conversation
  simp only
  by_cases hfind : (l.find? (fun e => e.1 == c)).isSome = true
  · rw [if_pos hfind]
    have hfind2 : ((l.map (fun e => if e.1 == c then (e.1, insertSet e.2 u) else e)).find?
        (fun e => e.1 == c)).isSome = true := by
      obtain ⟨e0, he0, hp0⟩ := List.find?_isSome.mp hfind
      refine List.find?_isSome.mpr ⟨_, List.mem_map_of_mem _ he0, ?_⟩
      simp only [hp0, if_true]
    rw [if_pos hfind2]
    congr 1
    rw [List.map_map]
    apply List.map_congr_left
    intro e _
    by_cases hb : (e.1 == c) = true
    · simp only [Function.comp_apply, hb, if_true, insertSet_idem]
    · simp only [Function.comp_apply, hb, if_false, Bool.false_eq_true, ite_false]
  · rw [if_neg hfind]
    have hnone : l.find? (fun e => e.1 == c) = none := by
      cases hcase : l.find? (fun e => e.1 == c) with
      | none => rfl
      | some v => rw [hcase] at hfind; simp at hfind
    have hall := List.find?_eq_none.mp hnone
    have hfind2 : (((l ++ [(c, [u])]).find? (fun e => e.1 == c)).isSome) = true := by
      refine List.find?_isSome.mpr ⟨(c, [u]), ?_, by simp⟩
      simp
    rw [if_pos hfind2]
    congr 1
    rw [List.map_append]
    have hmapl : l.map (fun e => if e.1 == c then (e.1, insertSet e.2 u) else e) = l := by
      have : ∀ e ∈ l, (if (e.1 == c) = true then (e.1, insertSet e.2 u) else e) = id e := by
        intro e he
        rw [if_neg (hall e he)]
        rfl
      rw [List.map_congr_left this, List.map_id]
    rw [hmapl]
    have hsingle : [(c, [u])].map (fun e => if e.1 == c then (e.1, insertSet e.2 u) else e) =
        [(c, [u])] := by
      simp [insertSet_of_contains]
    rw [hsingle]

/-- Unsubscribing an identity that is not in the conversation's member set
leaves the Subscription Index unchanged (given that no member set is
empty, the code's garbage-collection invariant). -/
theorem unsubscribe_not_mem (srv : WsServer) (u c : Uuid)
    (hne : ∀ e ∈ srv.conversation_subscriptions, e.2 ≠ [])
    (hnm : ∀ e ∈ srv.conversation_subscriptions, e.1 = c → u ∉ e.2) :
    unsubscribe_from_conversation srv u c = srv := by
  obtain ⟨ses, l⟩ := srv
  unfold unsubscribe_from_conversation
  simp only
  congr 1
  induction l with
  | nil => rfl
  | cons e tl ih =>
    have hnee : e.2 ≠ [] := hne e (List.mem_cons_self e tl)
    rw [List.filterMap_cons]
    by_cases hb : (e.1 == c) = true
    · have hu : u ∉ e.2 := hnm e (List.mem_cons_self e tl) (beq_iff_eq.mp hb)
      rw [if_pos hb, removeSet_of_not_mem hu, if_neg (by simpa using hnee)]
      rw [ih (fun x hx => hne x (List.mem_cons_of_mem e hx))
          (fun x hx => hnm x (List.mem_cons_of_mem e hx))]
    · rw [if_neg hb]
      rw [ih (fun x hx => hne x (List.mem_cons_of_mem e hx))
          (fun x hx => hnm x (List.mem_cons_of_mem e hx))]

/-- Subscribing preserves the absence of empty member sets. -/
theorem subscribe_preserves_ne (srv : WsServer) (u c : Uuid)
    (hne : ∀ e ∈ srv.conversation_subscriptions, e.2 ≠ []) :
    ∀ e ∈ (subscribe_to_conversation srv u c).conversation_subscriptions, e.2 ≠ [] := by
  intro e he
  unfold subscribe_to_conversation at he
  simp only at he
  by_cases hfind : ((srv.conversation_subscriptions.find? (fun x => x.1 == c)).isSome) = true
  · rw [if_pos hfind] at he
    obtain ⟨a, ha, hae⟩ := List.mem_map.mp he
    by_cases hb : (a.1 == c) = true
    · rw [if_pos hb] at hae
      rw [← hae]
      exact insertSet_ne_nil a.2 u
    · rw [if_neg hb] at hae
      exact hae ▸ hne a ha
  · rw [if_neg hfind] at he
    rcases List.mem_append.mp he with hl | hr
    · exact hne e hl
    · rw [List.mem_singleton.mp hr]
      simp

/-- Unsubscribing preserves the absence of empty member sets. -/
theorem unsubscribe_preserves_ne (srv : WsServer) (u c : Uuid)
    (hne : ∀ e ∈ srv.conversation_subscriptions, e.2 ≠ []) :
    ∀ e ∈ (unsubscribe_from_conversation srv u c).conversation_subscriptions, e.2 ≠ [] := by
  intro e he
  unfold unsubscribe_from_conversation at he
  simp only at he
  obtain ⟨a, ha, hga⟩ := List.mem_filterMap.mp he
  by_cases hb : (a.1 == c) = true
  · rw [if_pos hb] at hga
    by_cases hemp : ((removeSet a.2 u).isEmpty) = true
    · rw [if_pos hemp] at hga
      exact absurd hga (by simp)
    · rw [if_neg hemp] at hga
      have : (a.1, removeSet a.2 u) = e := Option.some.inj hga
      rw [← this]
      simpa using hemp
  · rw [if_neg hb] at hga
    exact (Option.some.inj hga) ▸ hne a ha

/-- Disconnecting preserves the absence of empty member sets. -/
theorem disconnect_preserves_ne (srv : WsServer) (i : Uuid) :
    ∀ e ∈ (disconnect srv i).conversation_subscriptions, e.2 ≠ [] := by
  intro e he
  unfold disconnect at he
  simp only at he
  have := (List.mem_filter.mp he).2
  simpa using this

/-- C10: subscribing is idempotent; unsubscribing a non-member of
conversation `c` leaves the Subscription Index unchanged; and after
subscribe, unsubscribe or disconnect no conversation entry carries an
empty member set — the garbage-collection invariant is preserved. -/
theorem subscription_index_properties (srv : WsServer) (u c : Uuid)
    (hne : ∀ e ∈ srv.conversation_subscriptions, e.2 ≠ [])
    (hnm : ∀ e ∈ srv.conversation_subscriptions, e.1 = c → u ∉ e.2) :
    (∀ u' c', subscribe_to_conversation (subscribe_to_conversation srv u' c') u' c' =
      subscribe_to_conversation srv u' c') ∧
    unsubscribe_from_conversation srv u c = srv ∧
    (∀ u' c', ∀ e ∈ (subscribe_to_conversation srv u' c').conversation_subscriptions,
      e.2 ≠ []) ∧
    (∀ u' c', ∀ e ∈ (unsubscribe_from_conversation srv u' c').conversation_subscriptions,
      e.2 ≠ []) ∧
    (∀ i, ∀ e ∈ (disconnect srv i).conversation_subscriptions, e.2 ≠ []) :=
  ⟨fun u' c' => subscribe_idem srv u' c',
   unsubscribe_not_mem srv u c hne hnm,
   fun u' c' => subscribe_preserves_ne srv u' c' hne,
   fun u' c' => unsubscribe_preserves_ne srv u' c' hne,
   fun i => disconnect_preserves_ne srv i⟩

/-- Witness: the two-session fixture, identity 9 not subscribed to
conversation 100; double-subscribe of 9 equals single subscribe, and
unsubscribing 9 is a no-op. -/
theorem subscription_index_properties_witness :
    subscribe_to_conversation (subscribe_to_conversation srvTwoSessions 9 100) 9 100 =
      subscribe_to_conversation srvTwoSessions 9 100 ∧
    unsubscribe_from_conversation srvTwoSessions 9 100 = srvTwoSessions :=
  ⟨(subscription_index_properties srvTwoSessions 9 100 (by decide) (by decide)).1 9 100,
   (subscription_index_properties srvTwoSessions 9 100 (by decide) (by decide)).2.1⟩

/-- Under primary-key uniqueness, every row matching the looked-up id is
the row `find?` returned. -/
theorem conv_unique_of_nodup {l : List Conversation} {cid : Uuid} {conv : Conversation}
    (h : l.find? (fun c' => c'.id == cid) = some conv)
    (hnd : (l.map (fun c' => c'.id)).Nodup) :
    ∀ c' ∈ l, c'.id = cid → c' = conv := by
  intro c' hc' hid
  have hmem : conv ∈ l := List.mem_of_find?_eq_some h
  have hpred := List.find?_some h
  have hcid : conv.id = cid := beq_iff_eq.mp hpred
  exact List.inj_on_of_nodup_map hnd hc' hmem (by rw [hid, hcid])

/-- A `WHERE id = $1 AND <predicate>` probe finds a row exactly when the
unique row with that id satisfies the predicate. -/
theorem find?_conj_iff {l : List Conversation} {cid : Uuid} {conv : Conversation}
    (p : Conversation → Bool)
    (h : l.find? (fun c' => c'.id == cid) = some conv)
    (huniq : ∀ c' ∈ l, c'.id = cid → c' = conv) :
    (l.find? (fun c' => c'.id == cid && p c')).isSome = true ↔ p conv = true := by
  constructor
  · intro hs
    obtain ⟨x, hx, hpx⟩ := List.find?_isSome.mp hs
    rw [Bool.and_eq_true] at hpx
    obtain ⟨hq, hp⟩ := hpx
    rwa [huniq x hx (beq_iff_eq.mp hq)] at hp
  · intro hp
    refine List.find?_isSome.mpr ⟨conv, List.mem_of_find?_eq_some h, ?_⟩
    have hpred := List.find?_some h
    rw [Bool.and_eq_true]
    exact ⟨hpred, hp⟩

/-- The summary UPDATE rewrites exactly the row `find?` located: after the
row-wise update, looking the conversation up again yields the row with the
new summary. -/
theorem find?_map_update (l : List Conversation) (cid : Uuid) (conv : Conversation)
    (content : String) (ts : Int)
    (h : l.find? (fun c' => c'.id == cid) = some conv) :
    (l.map (fun c' => if c'.id == cid then
        { c' with last_message := some content, last_updated_timestamp := ts } else c')).find?
      (fun c' => c'.id == cid) =
    some { conv with last_message := some content, last_updated_timestamp := ts } := by
  induction l with
  | nil => simp at h
  | cons a tl ih =>
    simp only [List.find?_cons] at h
    simp only [List.map_cons, List.find?_cons]
    by_cases hb : (a.id == cid) = true
    · simp only [hb] at h
      have ha : a = conv := Option.some.inj h
      subst ha
      simp [hb]
    · have hb' : (a.id == cid) = false := by
        simpa using hb
      simp only [hb'] at h
      simp only [hb', Bool.false_eq_true, if_false]
      exact ih h

/-- C3 (amended): with the conversation row present and ids unique, a
`message` event from `requester` is authorized exactly when the requester's
registered scope matches their membership side — scope client and being the
conversation's client, or scope provider and being in its providers list.
When authorized (and the store does not fail), exactly one new Message row
is appended and the conversation summary becomes the sent content; when not
authorized, the database is unchanged. -/
theorem handle_message_event_send_spec (db : Db) (srv : WsServer) (requester cid : Uuid)
    (content : String) (ts : Int) (conv : Conversation)
    (hconv : db.conversations.find? (fun c' => c'.id == cid) = some conv)
    (hnd : (db.conversations.map (fun c' => c'.id)).Nodup) :
    (can_send db requester cid = true ↔
      ((userScope db requester = "client" ∧ conv.client = requester) ∨
       (userScope db requester = "provider" ∧ requester ∈ conv.providers))) ∧
    (can_send db requester cid = true →
      ∃ m, (handle_message_event db srv requester requester cid content ts
          false false).db.messages = db.messages ++ [m] ∧
        m.content = content ∧ m.conversation_id = cid ∧ m.sender_id = requester ∧
        (handle_message_event db srv requester requester cid content ts
            false false).db.conversations.find? (fun c' => c'.id == cid) =
          some { conv with last_message := some content, last_updated_timestamp := ts }) ∧
    (can_send db requester cid = false →
      (handle_message_event db srv requester requester cid content ts false false).db = db) := by
  have huniq := conv_unique_of_nodup hconv hnd
  refine ⟨?_, ?_, ?_⟩
  · unfold can_send clientInConversation providerInConversation
    by_cases hcl : userScope db requester = "client"
    · rw [if_pos hcl, find?_conj_iff (fun c' => c'.client == requester) hconv huniq]
      constructor
      · intro h
        exact Or.inl ⟨hcl, beq_iff_eq.mp h⟩
      · rintro (⟨_, hc⟩ | ⟨hpr, _⟩)
        · exact beq_iff_eq.mpr hc
        · rw [hcl] at hpr
          exact absurd hpr (by decide)
    · rw [if_neg hcl]
      by_cases hpr : userScope db requester = "provider"
      · rw [if_pos hpr, find?_conj_iff (fun c' => c'.providers.contains requester) hconv huniq]
        constructor
        · intro h
          exact Or.inr ⟨hpr, List.elem_iff.mp h⟩
        · rintro (⟨hc, _⟩ | ⟨_, hm⟩)
          · exact absurd hc hcl
          · exact List.elem_iff.mpr hm
      · rw [if_neg hpr]
        constructor
        · intro h
          exact absurd h (by simp)
        · rintro (⟨hc, _⟩ | ⟨hp, _⟩)
          · exact absurd hc hcl
          · exact absurd hp hpr
  · intro hcs
    have hred : (handle_message_event db srv requester requester cid content ts
        false false).db =
        Db.mk db.users
          (db.conversations.map (fun c' =>
            if c'.id == cid then
              { c' with last_message := some content, last_updated_timestamp := ts }
            else c'))
          (db.messages ++ [Message.mk db.nextMessageId cid requester content ts])
          (db.nextMessageId + 1) := by
      simp only [handle_message_event, hcs, Bool.not_true, Bool.false_eq_true, if_false,
        ConversationService.send_message]
    refine ⟨Message.mk db.nextMessageId cid requester content ts, ?_, rfl, rfl, rfl, ?_⟩
    · rw [hred]
    · rw [hred]
      exact find?_map_update db.conversations cid conv content ts hconv
  · intro hcsf
    simp only [handle_message_event, hcsf, Bool.not_false, if_true]

/-- Witness: in `dbSender` the requester 1 has scope client and owns
conversation 100, so the send is authorized, appends one row and rewrites
the summary. -/
theorem handle_message_event_send_spec_witness :
    (can_send dbSender 1 100 = true ↔
      ((userScope dbSender 1 = "client" ∧ convAtomic.client = 1) ∨
       (userScope dbSender 1 = "provider" ∧ 1 ∈ convAtomic.providers))) ∧
    (∃ m, (handle_message_event dbSender srvSender 1 1 100 "hello" 9
        false false).db.messages = dbSender.messages ++ [m] ∧
      m.content = "hello" ∧ m.conversation_id = 100 ∧ m.sender_id = 1 ∧
      (handle_message_event dbSender srvSender 1 1 100 "hello" 9
          false false).db.conversations.find? (fun c' => c'.id == 100) =
        some { convAtomic with last_message := some "hello", last_updated_timestamp := 9 }) := by
  have h := handle_message_event_send_spec dbSender srvSender 1 100 "hello" 9 convAtomic
    (by decide) (by decide)
  exact ⟨h.1, h.2.1 (by decide)⟩

/-- C3 counterexample: user 2 is registered with scope client and appears
in the providers list of conversation 100 — a member in the claim's sense —
yet the send is rejected: no Message row is persisted and only `error`
events are emitted. -/
theorem send_message_membership_counterexample :
    dbMixed.conversations = [convMixed] ∧
    (2 : Uuid) ∈ convMixed.providers ∧
    can_send dbMixed 2 100 = false ∧
    (handle_message_event dbMixed srvTwoSessions 2 2 100 "hi" 5 false false).db = dbMixed ∧
    (handle_message_event dbMixed srvTwoSessions 2 2 100 "hi" 5 false false).deliveries.all
      (fun d => d.message.event == "error") = true := by decide

end VtRust
